import Mathlib

/-!
Shallow embedding of the `pytemplate` template engine (src/template.py):
lexer (`re.split` over the three delimiter shapes), token construction,
expression/filter parsing, program building and the render-time evaluator,
together with the facade types `Template` and `TemplateEngine`.

Pure functions of the source are translated directly.  The loop tokens
`For`/`EndFor` are bare stubs in src/template.py (`class For(Token): pass`)
while their behaviour is pinned down by the repository's tests and the spec;
those parts are modelled from the spec and marked as such in doc comments.
-/

namespace PyTemplate

/-- Error classes of the engine: `structural` embeds Python's `SyntaxError`
(compile-time structural errors), `nameNotFound` embeds `NameError`
(render-time unresolved variable or filter), `unsupported` marks host-language
evaluation capabilities outside the modelled fragment, and `outOfFuel` is the
interpreter's artificial step bound (never reached by the programs the claims
evaluate). -/
inductive TemplateError where
  | structural (msg : String)
  | nameNotFound (msg : String)
  | unsupported (msg : String)
  | outOfFuel
deriving DecidableEq, Repr

/-- Python `str.strip()` / regex `\s` character class (ASCII fragment). -/
def pyIsSpace (c : Char) : Bool :=
  c = ' ' || c = '\t' || c = '\n' || c = '\r' || c = '\x0b' || c = '\x0c'

/-- Regex `\w` / `[A-Za-z0-9_]` character class (ASCII fragment; Python's
`\w` additionally matches non-ASCII word characters, which no part of the
repository exercises). -/
def isWordChar (c : Char) : Bool :=
  c.isAlpha || c.isDigit || c = '_'

/-- Python `str.strip()` on a character list: drop leading and trailing
whitespace. -/
def pyStripL (l : List Char) : List Char :=
  ((l.dropWhile pyIsSpace).reverse.dropWhile pyIsSpace).reverse

/-- Python `str.strip()`. -/
def pyStrip (s : String) : String :=
  ⟨pyStripL s.data⟩

/-- Python `s.startswith(xy)` for a two-character marker `xy`. -/
def startsWithPair (s : String) (c1 c2 : Char) : Bool :=
  match s.data with
  | a :: b :: _ => a = c1 && b = c2
  | _ => false

/-- Python `s.endswith(xy)` for a two-character marker `xy`. -/
def endsWithPair (s : String) (c1 c2 : Char) : Bool :=
  match s.data.reverse with
  | b :: a :: _ => a = c1 && b = c2
  | _ => false

/-- Python `text[2:-2]` (clamped slicing, as in `create_token`). -/
def sliceInner (s : String) : String :=
  ⟨(s.data.drop 2).take (s.data.length - 4)⟩

/-- Non-greedy scan for the two-character closing marker `c1 c2` of a
delimiter, as matched by `.*?` followed by the closer in
`re.split(r"({{.*?}}|{#.*?#}|{%.*?%})", text)`: the shortest run of
non-newline characters (`.` does not match a newline) up to the first
occurrence of the closer.  Returns the enclosed content and the remainder
after the closer. -/
def findClose (c1 c2 : Char) : List Char → Option (List Char × List Char)
  | x :: y :: rest =>
    if x = '\n' then none
    else if x = c1 && y = c2 then some ([], rest)
    else
      match findClose c1 c2 (y :: rest) with
      | some (content, rest') => some (x :: content, rest')
      | none => none
  | _ => none

/-- Try to match one of the three delimiter shapes at the head of the input;
on success return the full delimiter text (markers included) and the rest. -/
def matchDelim : List Char → Option (List Char × List Char)
  | '\x7b' :: '\x7b' :: rest =>
    (findClose '\x7d' '\x7d' rest).map
      (fun p => ('\x7b' :: '\x7b' :: (p.1 ++ ['\x7d', '\x7d']), p.2))
  | '\x7b' :: '#' :: rest =>
    (findClose '#' '\x7d' rest).map
      (fun p => ('\x7b' :: '#' :: (p.1 ++ ['#', '\x7d']), p.2))
  | '\x7b' :: '%' :: rest =>
    (findClose '%' '\x7d' rest).map
      (fun p => ('\x7b' :: '%' :: (p.1 ++ ['%', '\x7d']), p.2))
  | _ => none

/-- Worker for `rawSplit`: left-to-right leftmost-match scan, accumulating
the pending literal in reverse.  The fuel argument is an upper bound on the
number of characters still to be consumed; `rawSplit` supplies enough that
the bound is never hit. -/
def rawSplitAux : Nat → List Char → List Char → List String
  | 0, acc, _ => [⟨acc.reverse⟩]
  | fuel + 1, acc, cs =>
    match matchDelim cs with
    | some (delim, rest') => ⟨acc.reverse⟩ :: ⟨delim⟩ :: rawSplitAux fuel [] rest'
    | none =>
      match cs with
      | [] => [⟨acc.reverse⟩]
      | c :: rest => rawSplitAux fuel (c :: acc) rest

/-- `re.split(r"({{.*?}}|{#.*?#}|{%.*?%})", text)`: the pieces between
matches interleaved with the captured delimiter texts. -/
def rawSplit (s : String) : List String :=
  rawSplitAux s.data.length [] s.data

/-- `extract_last_filter`: peel a trailing `| <identifier>` suffix, matched
by `re.search(r'(\|\s*[A-Za-z0-9_]+\s*)$', text)`.  On a match the result is
`(text-before-the-bar, stripped, and the filter identifier)`; otherwise the
input is returned with an empty filter.  The anchored pattern admits at most
one match, so the leftmost-match search is equivalent to this scan from the
end of the string. -/
def extract_last_filter (text : String) : String × String :=
  match (((text.data.reverse.dropWhile pyIsSpace).dropWhile isWordChar).dropWhile pyIsSpace :
      List Char) with
  | '|' :: rest =>
    if ((text.data.reverse.dropWhile pyIsSpace).takeWhile isWordChar).isEmpty then (text, "")
    else
      (⟨pyStripL rest.reverse⟩,
        ⟨((text.data.reverse.dropWhile pyIsSpace).takeWhile isWordChar).reverse⟩)
  | _ => (text, "")

/-- Worker for `parse_expr`.  Each successful peel shortens the string, so
fuel `text.length + 1` always suffices. -/
def parse_expr_aux : Nat → String → List String → String × List String
  | 0, text, acc => (text, acc)
  | fuel + 1, text, acc =>
    let p := extract_last_filter text
    if p.2 = "" then (p.1, acc) else parse_expr_aux fuel p.1 (p.2 :: acc)

/-- `parse_expr`: repeatedly strip trailing `| <identifier>` suffixes; the
peeled identifiers are inserted at the front of the filter list, so the
returned list preserves left-to-right textual order. -/
def parse_expr (text : String) : String × List String :=
  parse_expr_aux (text.data.length + 1) text []

/-- The token variants of src/template.py.  `Text`, `Expr` and `Comment`
carry exactly the fields their classes store.  `For`/`EndFor` are stub
classes in the source; their fields are modelled from the spec
(`LoopBegin(loopVar, iterableName)`, `LoopEnd()`). -/
inductive Tok where
  | textTok (content : String)
  | exprTok (varname : String) (filters : List String)
  | comment (content : String)
  | forTok (loopVar : String) (iterable : String)
  | endforTok
deriving DecidableEq, Repr

/-- Python `repr` of a token, as implemented by `Text.__repr__`,
`Expr.__repr__` and `Comment.__repr__` (f-string interpolation of the stored
fields; the filters joined by a pipe separator).  Modelled from the spec for
the stub variants `For`/`EndFor`, whose structural fields are interpolated
the same way. -/
def reprTok : Tok → String
  | Tok.textTok c => "Text(" ++ c ++ ")"
  | Tok.exprTok v [] => "Expr(" ++ v ++ ")"
  | Tok.exprTok v (f :: fs) =>
    "Expr(" ++ v ++ " | " ++ (fs.foldl (fun a b => a ++ " | " ++ b) f) ++ ")"
  | Tok.comment c => "Comment(" ++ c ++ ")"
  | Tok.forTok v it => "For(" ++ v ++ ", " ++ it ++ ")"
  | Tok.endforTok => "EndFor()"

/-- Whether two tokens are instances of the same class
(`type(self) == type(other)`). -/
def sameVariant : Tok → Tok → Bool
  | Tok.textTok _, Tok.textTok _ => true
  | Tok.exprTok _ _, Tok.exprTok _ _ => true
  | Tok.comment _, Tok.comment _ => true
  | Tok.forTok _ _, Tok.forTok _ _ => true
  | Tok.endforTok, Tok.endforTok => true
  | _, _ => false

/-- `Token.__eq__`: same class and equal `repr` strings. -/
def tokenEq (a b : Tok) : Bool :=
  sameVariant a b && (reprTok a == reprTok b)

/-- Python `str.split()` worker: split on runs of whitespace, dropping empty
pieces.  Fuel is the length of the input, which always suffices. -/
def splitWsAux : Nat → List Char → List String
  | 0, _ => []
  | fuel + 1, l =>
    match l.dropWhile pyIsSpace with
    | [] => []
    | c :: rest =>
      let w := (c :: rest).takeWhile (fun ch => !pyIsSpace ch)
      ⟨w⟩ :: splitWsAux fuel ((c :: rest).drop w.length)

/-- Python `str.split()` (no separator argument). -/
def splitWs (s : String) : List String :=
  splitWsAux s.data.length s.data

/-- A bare identifier, as required by the spec for the two names in a loop
header: a letter or underscore followed by word characters. -/
def isIdent (s : String) : Bool :=
  match s.data with
  | [] => false
  | c :: rest => (c.isAlpha || c = '_') && rest.all isWordChar

/-- Modelled from the spec: `For.parse` is missing from src/template.py
(the class body is `pass`); per spec section 4.2 the body is parsed with the
pattern `for <var> in <iterable>`, both bare identifiers, and anything else
is a structural error naming the offending content. -/
def parseForBody (content : String) : Except TemplateError Tok :=
  match splitWs content with
  | [kw, v, inKw, it] =>
    if kw = "for" && inKw = "in" && isIdent v && isIdent it then
      Except.ok (Tok.forTok v it)
    else
      Except.error (TemplateError.structural ("Invalid loop header: " ++ content))
  | _ => Except.error (TemplateError.structural ("Invalid loop header: " ++ content))

/-- `create_control_token`: strip the body, take its leading `\w+` run as the
keyword, and dispatch on it; an absent or unknown keyword is a structural
error naming the content.  The `for` branch delegates to the spec-modelled
loop-header parser; per spec the `endfor` branch stores no body. -/
def create_control_token (content : String) : Except TemplateError Tok :=
  if (⟨(pyStrip content).data.takeWhile isWordChar⟩ : String) = "" then
    Except.error (TemplateError.structural ("Unknown control token: " ++ pyStrip content))
  else if (⟨(pyStrip content).data.takeWhile isWordChar⟩ : String) = "for" then
    parseForBody (pyStrip content)
  else if (⟨(pyStrip content).data.takeWhile isWordChar⟩ : String) = "endfor" then
    Except.ok Tok.endforTok
  else
    Except.error (TemplateError.structural ("Unknown control token: " ++ pyStrip content))

/-- `create_token`: classify a raw segment by its delimiter markers and parse
it into a token.  Expression and comment bodies are stripped; literal text is
stored exactly. -/
def create_token (text : String) : Except TemplateError Tok :=
  if startsWithPair text '\x7b' '\x7b' && endsWithPair text '\x7d' '\x7d' then
    let p := parse_expr (pyStrip (sliceInner text))
    Except.ok (Tok.exprTok p.1 p.2)
  else if startsWithPair text '\x7b' '#' && endsWithPair text '#' '\x7d' then
    Except.ok (Tok.comment (pyStrip (sliceInner text)))
  else if startsWithPair text '\x7b' '%' && endsWithPair text '%' '\x7d' then
    create_control_token (pyStrip (sliceInner text))
  else
    Except.ok (Tok.textTok text)

/-- `tokenize`: split the source on the delimiter shapes, drop segments that
are empty or whitespace-only (`if s.strip()`), and parse each remaining
segment into a token. -/
def tokenize (text : String) : Except TemplateError (List Tok) :=
  ((rawSplit text).filter (fun s => !(pyStrip s == ""))).mapM create_token

/-- Runtime values of a render context.  `vloop` is the spec's `LoopState`
(section 3): it exposes `index0`, its alias `index`, and the one-based
`index1`, all derived from the stored zero-based position. -/
inductive Value where
  | vstr (s : String)
  | vint (n : Int)
  | vlist (xs : List Value)
  | vloop (index0 : Nat)

/-- The filter registry: ordered name/function bindings; later registrations
shadow earlier ones, as for Python dict assignment. -/
abbrev FilterReg : Type := List (String × (Value → Value))

/-- A render context / the evaluator's variable bindings. -/
abbrev Ctx : Type := List (String × Value)

/-- Dict lookup: the most recent binding for a name. -/
def lookupBind {α : Type} : List (String × α) → String → Option α
  | [], _ => none
  | (k, v) :: rest, nm => if k = nm then some v else lookupBind rest nm

/-- Python `str()` of a value, as applied by the generated
`_output_.append(str(...))`.  The host conversion is modelled for the value
shapes the repository exercises (strings and integers); lists and loop-state
objects never reach `str()` in any test or spec scenario and are rendered
opaquely here. -/
def valueStr : Value → String
  | Value.vstr s => s
  | Value.vint n => toString n
  | Value.vlist _ => "[list]"
  | Value.vloop _ => "[loop]"

/-- Split a name at its first dot: `loop.index1` resolves as attribute
access on the value bound to the part before the dot. -/
def splitDot (s : String) : String × Option String :=
  let pre := s.data.takeWhile (fun c => !(c = '.'))
  if pre.length = s.data.length then (s, none)
  else (⟨pre⟩, some ⟨s.data.drop (pre.length + 1)⟩)

/-- Resolve a variable reference against the bindings.  A plain name not
bound in the context raises Python's `NameError`; attribute access is
modelled from the spec for the `LoopState` fields `index0`/`index`/`index1`
(the class is absent from src/template.py); other host expressions are out
of the modelled fragment. -/
def resolveName (vars : Ctx) (nm : String) : Except TemplateError Value :=
  match splitDot nm with
  | (base, none) =>
    match lookupBind vars base with
    | some v => Except.ok v
    | none => Except.error (TemplateError.nameNotFound ("name " ++ base ++ " is not defined"))
  | (base, some attr) =>
    match lookupBind vars base with
    | none => Except.error (TemplateError.nameNotFound ("name " ++ base ++ " is not defined"))
    | some (Value.vloop i) =>
      if attr = "index0" then Except.ok (Value.vint (Int.ofNat i))
      else if attr = "index" then Except.ok (Value.vint (Int.ofNat i))
      else if attr = "index1" then Except.ok (Value.vint (Int.ofNat (i + 1)))
      else Except.error (TemplateError.unsupported ("attribute " ++ attr))
    | some _ => Except.error (TemplateError.unsupported ("attribute " ++ attr))

/-- Apply a filter pipeline to a value the way the code generated by
`Expr.generate_code` evaluates: the fold over `self._filters[::-1]` nests
the first-written filter outermost, so the last-written (rightmost) filter
is applied first and the first-written (leftmost) last.  A filter name
missing from the registry raises `NameError`. -/
def applyFilters (reg : FilterReg) : List String → Value → Except TemplateError Value
  | [], v => Except.ok v
  | f :: rest, v =>
    match applyFilters reg rest v with
    | Except.error e => Except.error e
    | Except.ok inner =>
      match lookupBind reg f with
      | some fn => Except.ok (fn inner)
      | none => Except.error (TemplateError.nameNotFound ("name " ++ f ++ " is not defined"))

/-- Evaluate the composed reference of an expression token: resolve the
variable, then run the filter pipeline. -/
def evalRef (reg : FilterReg) (vars : Ctx) (varname : String) (filters : List String) :
    Except TemplateError Value :=
  match resolveName vars varname with
  | Except.error e => Except.error e
  | Except.ok v => applyFilters reg filters v

/-- Instructions of the intermediate program (spec section 4.4): emit
literal text, evaluate-and-emit a composed reference, run a loop over an
iterable with a body block, or (at run time only) bind a variable in the
private context.  Modelled from the spec: the program builder and the loop
instructions are absent from src/template.py. -/
inductive PInstr where
  | emitText (s : String)
  | emitExpr (varname : String) (filters : List String)
  | loop (loopVar : String) (iterable : String) (body : List PInstr)
  | setVar (nm : String) (v : Value)

/-- Modelled from the spec (section 4.4): single pass over the token
sequence with a block stack of open loops.  `EndFor` with an empty stack and
an unterminated `For` at end of input are structural errors. -/
def buildProgram : List Tok → List PInstr → List (String × String × List PInstr) →
    Except TemplateError (List PInstr)
  | [], acc, [] => Except.ok acc.reverse
  | [], _, (v, it, _) :: _ =>
    Except.error (TemplateError.structural ("unterminated loop block: for " ++ v ++ " in " ++ it))
  | t :: ts, acc, stack =>
    match t with
    | Tok.textTok c => buildProgram ts (PInstr.emitText c :: acc) stack
    | Tok.exprTok v fs => buildProgram ts (PInstr.emitExpr v fs :: acc) stack
    | Tok.comment _ => buildProgram ts acc stack
    | Tok.forTok v it => buildProgram ts [] ((v, it, acc) :: stack)
    | Tok.endforTok =>
      match stack with
      | [] => Except.error (TemplateError.structural "end of loop block found with no matching start")
      | (v, it, outerAcc) :: stack' =>
        buildProgram ts (PInstr.loop v it acc.reverse :: outerAcc) stack'

/-- Compile a source text: tokenize, then build the program. -/
def compileText (text : String) : Except TemplateError (List PInstr) :=
  match tokenize text with
  | Except.error e => Except.error e
  | Except.ok toks => buildProgram toks [] []

/-- Evaluator state: the caller's context as handed to `render`, the private
copy the generated code executes against (`exec_ctx = ctx.copy()`), and the
output accumulator bound to `_output_`. -/
structure EState where
  caller : Ctx
  vars : Ctx
  out : List String

/-- Bind a name in the private context (dict assignment on the copy). -/
def bindVar (st : EState) (nm : String) (v : Value) : EState :=
  { st with vars := (nm, v) :: st.vars }

/-- Append a fragment to the output accumulator. -/
def emitOut (st : EState) (s : String) : EState :=
  { st with out := st.out ++ [s] }

/-- Unroll a loop body over the elements of its iterable: each iteration
binds the loop variable and a fresh `LoopState` under the conventional name
`loop` before running the body (spec section 4.5). -/
def unroll (loopVar : String) (body : List PInstr) : List Value → Nat → List PInstr
  | [], _ => []
  | x :: rest, i =>
    PInstr.setVar loopVar x :: PInstr.setVar "loop" (Value.vloop i) ::
      (body ++ unroll loopVar body rest (i + 1))

/-- Execute a program.  The result is returned together with the final state
so the frame behaviour is visible even when an error is raised.  Fuel is
decremented once per instruction; `renderFuel` below always supplies enough
for the programs the claims exercise, and exhaustion is a distinguished
error rather than silent truncation. -/
def exec (reg : FilterReg) : Nat → List PInstr → EState → Except TemplateError Unit × EState
  | 0, _, st => (Except.error TemplateError.outOfFuel, st)
  | _ + 1, [], st => (Except.ok (), st)
  | fuel + 1, p :: rest, st =>
    match p with
    | PInstr.emitText s => exec reg fuel rest (emitOut st s)
    | PInstr.emitExpr v fs =>
      match evalRef reg st.vars v fs with
      | Except.error e => (Except.error e, st)
      | Except.ok val => exec reg fuel rest (emitOut st (valueStr val))
    | PInstr.setVar nm v => exec reg fuel rest (bindVar st nm v)
    | PInstr.loop v it body =>
      match resolveName st.vars it with
      | Except.error e => (Except.error e, st)
      | Except.ok (Value.vlist xs) => exec reg fuel (unroll v body xs 0 ++ rest) st
      | Except.ok _ => (Except.error (TemplateError.unsupported ("not iterable: " ++ it)), st)

/-- Shallow size of a value: list values count their element count.  Used
only to provision the evaluator's step bound. -/
def valueSize : Value → Nat
  | Value.vstr _ => 1
  | Value.vint _ => 1
  | Value.vloop _ => 1
  | Value.vlist xs => xs.length + 2

/-- Shallow size of a context. -/
def ctxSize (ctx : Ctx) : Nat :=
  (ctx.map (fun p => valueSize p.2)).sum + 1

/-- A generous step bound for one render, in terms of the source length and
the context size: ample for every program and context the repository's tests
and the spec scenarios exercise (the trailing `+ 2` keeps at least two
unfolding steps available definitionally).  Exhaustion is the distinguished
`outOfFuel` error, so it can never be mistaken for an engine behaviour. -/
def renderFuel (text : String) (ctx : Ctx) : Nat :=
  8 * (text.data.length + 1) * (ctxSize ctx + 1) + 2

/-- Concatenate the output fragments (`"".join(output)`). -/
def joinOut (l : List String) : String :=
  l.foldl (fun a b => a ++ b) ""

/-- The `Template` class: the source text, the filter globals captured at
creation (`_global_vars`), and the compiled-code cache (`_code`, initially
`None`). -/
structure Template where
  text : String
  globalVars : FilterReg
  code : Option (List PInstr)

/-- `Template._generate_code`: compile and cache on first use; on a
structural error the cache stays empty and the error propagates. -/
def generateCode (t : Template) : Except TemplateError (List PInstr) × Template :=
  match t.code with
  | some c => (Except.ok c, t)
  | none =>
    match compileText t.text with
    | Except.ok c => (Except.ok c, { t with code := some c })
    | Except.error e => (Except.error e, t)

/-- `Template.render`: generate (or reuse) the code, execute it against a
private copy of the caller's context with a fresh output accumulator, and
join the fragments.  The result is returned together with the updated
template (cache) and the caller's mapping as it stands after the call. -/
def Template.render (t : Template) (ctx : Ctx) :
    Except TemplateError String × Template × Ctx :=
  match generateCode t with
  | (Except.error e, t') => (Except.error e, t', ctx)
  | (Except.ok prog, t') =>
    let st0 : EState := { caller := ctx, vars := ctx, out := [] }
    let r := exec t'.globalVars (renderFuel t'.text ctx) prog st0
    match r.1 with
    | Except.ok _ => (Except.ok (joinOut r.2.out), t', r.2.caller)
    | Except.error e => (Except.error e, t', r.2.caller)

/-- The `TemplateEngine` facade: the mutable filter registry. -/
structure TemplateEngine where
  filters : FilterReg

/-- `TemplateEngine.register`: add a named filter (later wins). -/
def TemplateEngine.register (e : TemplateEngine) (nm : String) (fn : Value → Value) :
    TemplateEngine :=
  ⟨(nm, fn) :: e.filters⟩

/-- `TemplateEngine.create`: wrap the source with the current registry;
no tokenization or validation happens here. -/
def TemplateEngine.create (e : TemplateEngine) (source : String) : Template :=
  { text := source, globalVars := e.filters, code := none }

/-- One-shot rendering through the facade, returning just the string (or the
error). -/
def renderString (source : String) (reg : FilterReg) (ctx : Ctx) :
    Except TemplateError String :=
  ((TemplateEngine.create ⟨reg⟩ source).render ctx).1

/-- An `upper` filter like the one registered by the repository's tests:
uppercase a string value. -/
def upperFilter : Value → Value
  | Value.vstr s => Value.vstr ⟨s.data.map Char.toUpper⟩
  | v => v

/-- A filter appending the letter `A`, used to separate the two possible
application orders of a two-filter pipeline. -/
def tagA : Value → Value
  | Value.vstr s => Value.vstr (s ++ "A")
  | v => v

/-- A filter appending the letter `B`. -/
def tagB : Value → Value
  | Value.vstr s => Value.vstr (s ++ "B")
  | v => v

/-- The textual filter-pipeline suffix `" | f1 | f2 | ..."`. -/
def pipeSuffix : List String → String
  | [] => ""
  | f :: rest => " | " ++ f ++ pipeSuffix rest

/-- An expression body written as a variable reference followed by a filter
pipeline in left-to-right textual order. -/
def joinPipes (v : String) (fs : List String) : String :=
  v ++ pipeSuffix fs

/-- The first whitespace-delimited word of a string (empty if none): the
reading of "keyword" used by the claim about control-token dispatch. -/
def firstWsWord (s : String) : String :=
  match splitWs s with
  | [] => ""
  | w :: _ => w

/-- Whether a render outcome is a structural (compile-time) error. -/
def isStructuralErr : Except TemplateError String → Bool
  | Except.error (TemplateError.structural _) => true
  | _ => false

/-- Whether a render outcome is a name-not-found (runtime) error. -/
def isNameErr : Except TemplateError String → Bool
  | Except.error (TemplateError.nameNotFound _) => true
  | _ => false

/-- C1 (counterexample): the claim asserts that rendering `x | a | b` emits
`b(a(x))`.  With `a` appending the letter `A` and `b` appending `B` to the
string bound to `x`, the engine emits `vBA`, i.e. `a(b(x))`, while `b(a(x))`
would be `vAB`; the two differ, so the claimed formula is false on this
input. -/
theorem c1_counterexample :
    renderString "\x7b\x7b x | a | b \x7d\x7d" [("a", tagA), ("b", tagB)]
        [("x", Value.vstr "v")] = Except.ok "vBA" ∧
    tagB (tagA (Value.vstr "v")) = Value.vstr "vAB" ∧
    ("vBA" : String) ≠ "vAB" :=
  ⟨rfl, rfl, by decide⟩

/-- C1 (amended): for the pipeline `x | a | b` the composed reference built
by `Expr.generate_code` applies the rightmost filter first and the leftmost
last, so the evaluated value is `a(b(x))` — never `b(a(x))` unless the two
coincide. -/
theorem c1_amended (reg : FilterReg) (ctx : Ctx) (x a b : String)
    (fa fb : Value → Value) (v : Value)
    (hx : resolveName ctx x = Except.ok v)
    (ha : lookupBind reg a = some fa) (hb : lookupBind reg b = some fb) :
    evalRef reg ctx x [a, b] = Except.ok (fa (fb v)) := by
  simp [evalRef, hx, applyFilters, ha, hb]

/-- C1 (witness): the amended order theorem applied at a concrete registry,
context and pipeline. -/
theorem c1_witness :
    evalRef [("a", tagA), ("b", tagB)] [("x", Value.vstr "v")] "x" ["a", "b"] =
      Except.ok (Value.vstr "vBA") :=
  c1_amended [("a", tagA), ("b", tagB)] [("x", Value.vstr "v")] "x" "a" "b"
    tagA tagB (Value.vstr "v") rfl rfl rfl

/-- C2: rendering the indexed loop template over `messages = ["a","b","c"]`
produces `1.a!2.b!3.c!` (the loop body runs once per element in order, with
`loop.index1` taking 1,2,3), and the same template with `loop.index0`
produces `0.a!1.b!2.c!` (`index0` taking 0,1,2). -/
theorem c2_theorem :
    renderString
        "\x7b% for msg in messages %\x7d\x7b\x7bloop.index1\x7d\x7d.\x7b\x7bmsg\x7d\x7d!\x7b% endfor %\x7d"
        [] [("messages", Value.vlist [Value.vstr "a", Value.vstr "b", Value.vstr "c"])] =
      Except.ok "1.a!2.b!3.c!" ∧
    renderString
        "\x7b% for msg in messages %\x7d\x7b\x7bloop.index0\x7d\x7d.\x7b\x7bmsg\x7d\x7d!\x7b% endfor %\x7d"
        [] [("messages", Value.vlist [Value.vstr "a", Value.vstr "b", Value.vstr "c"])] =
      Except.ok "0.a!1.b!2.c!" :=
  ⟨rfl, rfl⟩

/-- C3: whatever the filter registry and the context, rendering a template
consisting of a lone `endfor` control tag raises the structural
no-matching-start error, and rendering a template with an unterminated `for`
raises the structural unterminated-block error; no string is produced in
either case, on this or on any later render call. -/
theorem c3_theorem (reg : FilterReg) (ctx : Ctx) :
    renderString "\x7b% endfor %\x7d" reg ctx =
      Except.error (TemplateError.structural "end of loop block found with no matching start") ∧
    renderString "\x7b% for x in y %\x7d" reg ctx =
      Except.error (TemplateError.structural "unterminated loop block: for x in y") :=
  ⟨rfl, rfl⟩

/-- C4: rendering an expression whose variable is absent from an empty
context raises the name-not-found runtime error, and rendering a pipeline
whose filter `first` is not in the registry raises an error of the same
class; both render calls return no string. -/
theorem c4_theorem :
    renderString "\x7b\x7bmissing\x7d\x7d" [] [] =
      Except.error (TemplateError.nameNotFound "name missing is not defined") ∧
    isNameErr (renderString "\x7b\x7bmissing\x7d\x7d" [] []) = true ∧
    renderString "Hello, \x7b\x7b name | upper | first \x7d\x7d!" [("upper", upperFilter)]
        [("name", Value.vstr "alice")] =
      Except.error (TemplateError.nameNotFound "name first is not defined") ∧
    isNameErr (renderString "Hello, \x7b\x7b name | upper | first \x7d\x7d!" [("upper", upperFilter)]
        [("name", Value.vstr "alice")]) = true :=
  ⟨rfl, rfl, rfl, rfl⟩

/-- C5 (counterexample): a whitespace-only source contains no delimiter
markers, yet rendering drops it (whitespace-only segments never produce a
Text token), returning the empty string instead of the source. -/
theorem c5_counterexample :
    renderString " " [] [] = Except.ok "" ∧ ("" : String) ≠ " " :=
  ⟨rfl, by decide⟩

/-- C5 (amended): a source in which the lexer finds no delimiter marker and
which is not itself enclosed in delimiter markers renders unchanged under
every registry and context, provided it is not empty or whitespace-only
(such sources render to the empty string instead). -/
theorem c5_amended (text : String) (reg : FilterReg) (ctx : Ctx)
    (h1 : rawSplit text = [text])
    (h2 : pyStrip text ≠ "")
    (h3 : (startsWithPair text '\x7b' '\x7b' && endsWithPair text '\x7d' '\x7d') = false)
    (h4 : (startsWithPair text '\x7b' '#' && endsWithPair text '#' '\x7d') = false)
    (h5 : (startsWithPair text '\x7b' '%' && endsWithPair text '%' '\x7d') = false) :
    renderString text reg ctx = Except.ok text := by
  have hct : create_token text = Except.ok (Tok.textTok text) := by
    unfold create_token
    simp [h3, h4, h5]
  have htok : tokenize text = Except.ok [Tok.textTok text] := by
    unfold tokenize
    rw [h1]
    have hb : (pyStrip text == "") = false := beq_eq_false_iff_ne.mpr h2
    have hf : List.filter (fun s => !(pyStrip s == "")) [text] = [text] := by
      simp [List.filter, hb]
    rw [hf]
    simp [List.mapM, List.mapM.loop, hct]
  have hcomp : compileText text = Except.ok [PInstr.emitText text] := by
    unfold compileText
    rw [htok]
    rfl
  have hgen :
      generateCode (TemplateEngine.create ⟨reg⟩ text) =
        (Except.ok [PInstr.emitText text],
          { text := text, globalVars := reg, code := some [PInstr.emitText text] }) := by
    unfold generateCode TemplateEngine.create
    rw [hcomp]
  have hexec :
      exec reg (renderFuel text ctx) [PInstr.emitText text]
          { caller := ctx, vars := ctx, out := [] } =
        (Except.ok (), { caller := ctx, vars := ctx, out := [text] }) := rfl
  unfold renderString Template.render
  rw [hgen]
  simp only
  rw [hexec]
  simp only [joinOut, List.foldl]
  cases text
  rfl

/-- C5 (witness): the amended round-trip theorem applied to a concrete
literal-only source. -/
theorem c5_witness : renderString "Hello!" [] [] = Except.ok "Hello!" :=
  c5_amended "Hello!" [] [] rfl (by decide) rfl rfl rfl

/-- C6 (counterexample): the segment `{% endfor) %}` has first
whitespace-delimited keyword `endfor)`, which is neither `for` nor `endfor`,
yet the template compiles and renders without any error: keyword dispatch
uses only the leading word-character run (`endfor`), so the segment is
accepted as a loop end. -/
theorem c6_counterexample :
    renderString "\x7b% for x in y %\x7d\x7b% endfor) %\x7d" [] [("y", Value.vlist [])] =
      Except.ok "" ∧
    firstWsWord "endfor)" = "endfor)" ∧
    ("endfor)" : String) ≠ "for" ∧ ("endfor)" : String) ≠ "endfor" :=
  ⟨rfl, rfl, by decide, by decide⟩

/-- C6 (amended): a control body whose leading run of word characters is
neither `for` nor `endfor` — in particular a body that does not start with a
word character at all — is rejected with a structural error naming the
offending content; it is never treated as text. -/
theorem c6_amended (content : String)
    (h1 : (⟨(pyStrip content).data.takeWhile isWordChar⟩ : String) ≠ "for")
    (h2 : (⟨(pyStrip content).data.takeWhile isWordChar⟩ : String) ≠ "endfor") :
    create_control_token content =
      Except.error (TemplateError.structural ("Unknown control token: " ++ pyStrip content)) := by
  unfold create_control_token
  by_cases hemp : (⟨(pyStrip content).data.takeWhile isWordChar⟩ : String) = ""
  · rw [if_pos hemp]
  · rw [if_neg hemp, if_neg h1, if_neg h2]

/-- C6 (witness): the amended dispatch theorem applied to the repository's
own invalid-control test input. -/
theorem c6_witness :
    create_control_token "nokeyword" =
      Except.error (TemplateError.structural "Unknown control token: nokeyword") :=
  c6_amended "nokeyword" (by decide) (by decide)

/-- Wrapping a string between a fixed opener and closer is injective. -/
theorem strWrap_inj (p q c c' : String) (h : p ++ c ++ q = p ++ c' ++ q) : c = c' := by
  have hd : p.data ++ (c.data ++ q.data) = p.data ++ (c'.data ++ q.data) := by
    have hh := congrArg String.data h
    simpa [String.data_append] using hh
  have h1 := List.append_cancel_left hd
  have h2 := List.append_cancel_right h1
  exact congrArg String.mk h2

/-- C8 (amended): token equality compares the class and the `repr` string.
Tokens with identical fields always compare equal, and for the `Text` and
`Comment` variants — whose `repr` is injective in the stored field —
equality is exactly field equality.  (For `Expr`, distinct field pairs can
collide on the same `repr`; see the counterexample.) -/
theorem c8_amended :
    (∀ t : Tok, tokenEq t t = true) ∧
    (∀ c c' : String, tokenEq (Tok.textTok c) (Tok.textTok c') = true ↔ c = c') ∧
    (∀ c c' : String, tokenEq (Tok.comment c) (Tok.comment c') = true ↔ c = c') := by
  refine ⟨?_, ?_, ?_⟩
  · intro t
    cases t <;> simp [tokenEq, sameVariant]
  · intro c c'
    simp only [tokenEq, sameVariant, reprTok, Bool.true_and, beq_iff_eq]
    constructor
    · intro h
      exact strWrap_inj "Text(" ")" c c' (by simpa [String.append_assoc] using h)
    · intro h
      rw [h]
  · intro c c'
    simp only [tokenEq, sameVariant, reprTok, Bool.true_and, beq_iff_eq]
    constructor
    · intro h
      exact strWrap_inj "Comment(" ")" c c' (by simpa [String.append_assoc] using h)
    · intro h
      rw [h]

/-- C8 (witness): the amended equality theorem applied to concrete tokens. -/
theorem c8_witness : tokenEq (Tok.textTok "x!") (Tok.textTok "x!") = true :=
  c8_amended.1 (Tok.textTok "x!")

/-- C8 (counterexample): two `Expr` tokens with different field values — one
with the pipe inside the variable name and no filters, one with a genuine
filter — compare equal, because `Token.__eq__` compares `repr` strings and
both render as the same text. -/
theorem c8_counterexample :
    tokenEq (Tok.exprTok "a | b" []) (Tok.exprTok "a" ["b"]) = true ∧
    ¬(("a | b" : String) = "a" ∧ ([] : List String) = ["b"]) :=
  ⟨rfl, by decide⟩

/-- The evaluator never touches the caller's mapping: every state update of
`exec` writes only the private variable copy and the output accumulator,
whether the run completes, errors, or exhausts its fuel. -/
theorem exec_caller (reg : FilterReg) :
    ∀ (fuel : Nat) (ps : List PInstr) (st : EState),
      ((exec reg fuel ps st).2).caller = st.caller := by
  intro fuel
  induction fuel with
  | zero => intro ps st; rfl
  | succ n ih =>
    intro ps st
    cases ps with
    | nil => rfl
    | cons p rest =>
      cases p with
      | emitText s => exact ih rest (emitOut st s)
      | emitExpr v fs =>
        show ((match evalRef reg st.vars v fs with
          | Except.error e => (Except.error e, st)
          | Except.ok val => exec reg n rest (emitOut st (valueStr val))).2).caller = st.caller
        cases evalRef reg st.vars v fs with
        | error e => rfl
        | ok val => exact ih rest (emitOut st (valueStr val))
      | setVar nm v => exact ih rest (bindVar st nm v)
      | loop v it body =>
        show ((match resolveName st.vars it with
          | Except.error e => (Except.error e, st)
          | Except.ok (Value.vlist xs) => exec reg n (unroll v body xs 0 ++ rest) st
          | Except.ok _ =>
            (Except.error (TemplateError.unsupported ("not iterable: " ++ it)), st)).2).caller
          = st.caller
        cases hres : resolveName st.vars it with
        | error e => rfl
        | ok val =>
          cases val with
          | vstr s => rfl
          | vint m => rfl
          | vloop i => rfl
          | vlist xs => exact ih (unroll v body xs 0 ++ rest) st

/-- C9: for every template (however created or cached) and every caller
context, `render` — whether it returns a string or raises — hands back the
caller's mapping exactly as it was: loop variables, the loop state and the
output accumulator live only in the private copy. -/
theorem c9_theorem (t : Template) (ctx : Ctx) : (t.render ctx).2.2 = ctx := by
  unfold Template.render
  rcases hg : generateCode t with ⟨r, t'⟩
  cases r with
  | error e => rfl
  | ok prog =>
    have hc := exec_caller t'.globalVars (renderFuel t'.text ctx) prog
      { caller := ctx, vars := ctx, out := [] }
    simp only
    cases hx : (exec t'.globalVars (renderFuel t'.text ctx) prog
        { caller := ctx, vars := ctx, out := [] }).1 with
    | ok u => simpa [hx] using hc
    | error e => simpa [hx] using hc

/-- C10: template construction through the facade performs no tokenization
or validation — for every source, including malformed ones, the created
template carries an empty code cache — and compilation is memoized
transparently: rendering the template returned by a first render call (with
its cache now populated on success) gives exactly the same outcome as a
fresh first render, so structural errors surface at render time, on every
render call, never at creation. -/
theorem c10_theorem (e : TemplateEngine) (source : String) (ctx ctx' : Ctx) :
    (e.create source).code = none ∧
    (((e.create source).render ctx).2.1.render ctx').1 = ((e.create source).render ctx').1 := by
  refine ⟨rfl, ?_⟩
  unfold Template.render generateCode TemplateEngine.create
  rcases h : compileText source with e' | prog
  · simp [h]
  · simp only [h]
    rcases hx : (exec e.filters (renderFuel source ctx) prog
        { caller := ctx, vars := ctx, out := [] }).1 with e'' | u <;>
      simp [hx]

/-- A word character is not whitespace. -/
theorem word_not_space (c : Char) (h : isWordChar c = true) : pyIsSpace c = false := by
  cases hs : pyIsSpace c
  · rfl
  · exfalso
    unfold pyIsSpace at hs
    simp only [Bool.or_eq_true, decide_eq_true_eq] at hs
    rcases hs with ((((h1 | h1) | h1) | h1) | h1) | h1 <;> subst h1 <;> exact absurd h (by decide)

/-- dropWhile shortens or preserves length. -/
theorem length_dropWhile_le (p : Char → Bool) (l : List Char) :
    (l.dropWhile p).length ≤ l.length := by
  induction l with
  | nil => simp [List.dropWhile]
  | cons c t ih =>
    by_cases h : p c <;> simp [List.dropWhile, h] <;> omega

/-- dropWhile that preserves length is the identity. -/
theorem dropWhile_eq_self_of_length (p : Char → Bool) (l : List Char)
    (h : (l.dropWhile p).length = l.length) : l.dropWhile p = l := by
  cases l with
  | nil => rfl
  | cons c t =>
    by_cases hc : p c
    · exfalso
      have hle := length_dropWhile_le p t
      simp [List.dropWhile, hc] at h
      omega
    · simp [List.dropWhile, hc]

/-- takeWhile over a run of matching characters followed by a mismatch. -/
theorem takeWhile_append_all (p : Char → Bool) (l t : List Char) (c' : Char)
    (h : ∀ c ∈ l, p c = true) (hc : p c' = false) :
    (l ++ c' :: t).takeWhile p = l := by
  induction l with
  | nil => simp [List.takeWhile, hc]
  | cons c cs ih =>
    have hpc : p c = true := h c (by simp)
    simp only [List.cons_append, List.takeWhile_cons, hpc]
    simp [ih (fun x hx => h x (by simp [hx]))]

/-- dropWhile over a run of matching characters followed by a mismatch. -/
theorem dropWhile_append_all (p : Char → Bool) (l t : List Char) (c' : Char)
    (h : ∀ c ∈ l, p c = true) (hc : p c' = false) :
    (l ++ c' :: t).dropWhile p = c' :: t := by
  induction l with
  | nil => simp [List.dropWhile, hc]
  | cons c cs ih =>
    have hpc : p c = true := h c (by simp)
    simp only [List.cons_append, List.dropWhile_cons, hpc]
    simp [ih (fun x hx => h x (by simp [hx]))]

/-- Stripping ignores one trailing blank. -/
theorem stripL_append_space (l : List Char) : pyStripL (l ++ [' ']) = pyStripL l := by
  unfold pyStripL
  rw [List.dropWhile_append]
  by_cases hd : (l.dropWhile pyIsSpace).isEmpty
  · have hnil : l.dropWhile pyIsSpace = [] := by
      cases hh : l.dropWhile pyIsSpace
      · rfl
      · rw [hh] at hd; simp at hd
    rw [hnil]
    simp [List.dropWhile, pyIsSpace]
  · rw [if_neg hd]
    have hrw : (l.dropWhile pyIsSpace ++ [' ']).reverse = ' ' :: (l.dropWhile pyIsSpace).reverse := by
      simp
    rw [hrw]
    have hsp : pyIsSpace ' ' = true := by decide
    simp [List.dropWhile, hsp]

/-- A list unchanged by front and back whitespace-dropping is unchanged by
stripping. -/
theorem stripL_eq_self (l : List Char) (hh : l.dropWhile pyIsSpace = l)
    (ht : l.reverse.dropWhile pyIsSpace = l.reverse) : pyStripL l = l := by
  unfold pyStripL
  rw [hh, ht, List.reverse_reverse]

/-- A stripped string drops no whitespace at either end. -/
theorem strip_fix_parts (s : String) (h : pyStrip s = s) :
    s.data.dropWhile pyIsSpace = s.data ∧
    s.data.reverse.dropWhile pyIsSpace = s.data.reverse := by
  have hdata : pyStripL s.data = s.data := congrArg String.data h
  have h1 : (s.data.dropWhile pyIsSpace).length = s.data.length := by
    have hle1 := length_dropWhile_le pyIsSpace s.data
    have hle2 := length_dropWhile_le pyIsSpace (s.data.dropWhile pyIsSpace).reverse
    have hlen : (pyStripL s.data).length = s.data.length := by rw [hdata]
    unfold pyStripL at hlen
    simp only [List.length_reverse] at hlen hle2
    omega
  have hfront := dropWhile_eq_self_of_length pyIsSpace s.data h1
  refine ⟨hfront, ?_⟩
  have hback : pyStripL s.data = (s.data.reverse.dropWhile pyIsSpace).reverse := by
    unfold pyStripL
    rw [hfront]
  rw [hdata] at hback
  have := congrArg List.reverse hback
  simpa using this.symm

/-- The head of a list fixed by dropWhile does not match. -/
theorem dropWhile_fix_head (p : Char → Bool) (c : Char) (t : List Char)
    (h : (c :: t).dropWhile p = c :: t) : p c = false := by
  by_cases hc : p c
  · exfalso
    have hle := length_dropWhile_le p t
    simp [List.dropWhile, hc] at h
    have := congrArg List.length h
    simp at this
    omega
  · simpa using hc

/-- Peeling the last filter of `A | f`: the regex-anchored scan finds the
identifier `f` and returns the stripped prefix. -/
theorem extract_append (A f : String) (hf : f.data ≠ [])
    (hw : ∀ c ∈ f.data, isWordChar c = true) :
    extract_last_filter (A ++ " | " ++ f) = (pyStrip A, f) := by
  obtain ⟨c, cs, hrev⟩ := List.exists_cons_of_ne_nil
    (fun hnil => hf (by simpa using congrArg List.reverse hnil) :
      f.data.reverse ≠ [])
  have hwrev : ∀ x ∈ f.data.reverse, isWordChar x = true := by
    intro x hx
    exact hw x (List.mem_reverse.mp hx)
  have hc : isWordChar c = true := hwrev c (by rw [hrev]; simp)
  have hdata : (A ++ " | " ++ f).data.reverse =
      f.data.reverse ++ (' ' :: '|' :: ' ' :: A.data.reverse) := by
    simp [String.data_append]
  unfold extract_last_filter
  rw [hdata]
  have hdrop1 : (f.data.reverse ++ (' ' :: '|' :: ' ' :: A.data.reverse)).dropWhile pyIsSpace
      = f.data.reverse ++ (' ' :: '|' :: ' ' :: A.data.reverse) := by
    rw [hrev]
    simp [List.dropWhile, word_not_space c hc]
  rw [hdrop1]
  have htake : (f.data.reverse ++ (' ' :: '|' :: ' ' :: A.data.reverse)).takeWhile isWordChar
      = f.data.reverse :=
    takeWhile_append_all isWordChar f.data.reverse ('|' :: ' ' :: A.data.reverse) ' '
      hwrev (by decide)
  have hdropw : (f.data.reverse ++ (' ' :: '|' :: ' ' :: A.data.reverse)).dropWhile isWordChar
      = ' ' :: '|' :: ' ' :: A.data.reverse :=
    dropWhile_append_all isWordChar f.data.reverse ('|' :: ' ' :: A.data.reverse) ' '
      hwrev (by decide)
  rw [htake, hdropw]
  have hdrop2 : (' ' :: '|' :: ' ' :: A.data.reverse).dropWhile pyIsSpace
      = '|' :: ' ' :: A.data.reverse := by
    simp [List.dropWhile, (by decide : pyIsSpace ' ' = true), (by decide : pyIsSpace '|' = false)]
  rw [hdrop2]
  have hemp : f.data.reverse.isEmpty = false := by rw [hrev]; rfl
  simp only [hemp, Bool.false_eq_true, if_false]
  have e1 : (⟨pyStripL (' ' :: A.data.reverse).reverse⟩ : String) = pyStrip A := by
    have hrw : (' ' :: A.data.reverse).reverse = A.data ++ [' '] := by simp
    rw [hrw, stripL_append_space]
    rfl
  have e2 : (⟨f.data.reverse.reverse⟩ : String) = f := by simp
  rw [e1, e2]



/-- Appending one more filter to the pipeline suffix. -/
theorem pipeSuffix_append (fs : List String) (f : String) :
    pipeSuffix (fs ++ [f]) = pipeSuffix fs ++ (" | " ++ f) := by
  induction fs with
  | nil => simp [pipeSuffix]
  | cons g gs ih => simp [pipeSuffix, ih, String.append_assoc]

/-- Appending one more filter to a joined expression body. -/
theorem joinPipes_append (v : String) (fs : List String) (f : String) :
    joinPipes v (fs ++ [f]) = joinPipes v fs ++ " | " ++ f := by
  unfold joinPipes
  rw [pipeSuffix_append]
  simp [String.append_assoc]

/-- A nonempty pipeline suffix ends in a word character. -/
theorem pipeSuffix_rev_head (fs : List String) (hne : fs ≠ [])
    (h : ∀ f ∈ fs, f.data ≠ [] ∧ ∀ c ∈ f.data, isWordChar c = true) :
    ∃ c cs, (pipeSuffix fs).data.reverse = c :: cs ∧ isWordChar c = true := by
  induction fs with
  | nil => exact absurd rfl hne
  | cons g gs ih =>
    cases gs with
    | nil =>
      obtain ⟨hg, hgw⟩ := h g (by simp)
      obtain ⟨c, cs', hrev⟩ := List.exists_cons_of_ne_nil
        (fun hnil => hg (by simpa using congrArg List.reverse hnil) : g.data.reverse ≠ [])
      have hd : (pipeSuffix [g]).data.reverse = g.data.reverse ++ [' ', '|', ' '] := by
        simp [pipeSuffix, String.data_append]
      refine ⟨c, cs' ++ [' ', '|', ' '], ?_, ?_⟩
      · rw [hd, hrev]
        simp
      · exact hgw c (List.mem_reverse.mp (by rw [hrev]; simp))
    | cons g2 gs2 =>
      obtain ⟨c, cs', hrev, hc⟩ := ih (by simp) (fun f hf => h f (by simp [hf]))
      have hd : (pipeSuffix (g :: g2 :: gs2)).data.reverse =
          (pipeSuffix (g2 :: gs2)).data.reverse ++ (g.data.reverse ++ [' ', '|', ' ']) := by
        simp [pipeSuffix, String.data_append]
      refine ⟨c, cs' ++ (g.data.reverse ++ [' ', '|', ' ']), ?_, hc⟩
      rw [hd, hrev]
      simp

/-- A joined expression body with a stripped nonempty variable and word-only
filters is itself stripped. -/
theorem joinPipes_strip_fix (v : String) (fs : List String)
    (hv : pyStrip v = v) (hne : v ≠ "")
    (h : ∀ f ∈ fs, f.data ≠ [] ∧ ∀ c ∈ f.data, isWordChar c = true) :
    pyStrip (joinPipes v fs) = joinPipes v fs := by
  obtain ⟨hfront, hback⟩ := strip_fix_parts v hv
  have hvne : v.data ≠ [] := by
    intro hnil
    exact hne (congrArg String.mk hnil)
  obtain ⟨c, t, hcons⟩ := List.exists_cons_of_ne_nil hvne
  have hchead : pyIsSpace c = false := by
    apply dropWhile_fix_head pyIsSpace c t
    rw [← hcons]
    exact hfront
  have hjp : (joinPipes v fs).data = v.data ++ (pipeSuffix fs).data := by
    simp [joinPipes, String.data_append]
  have hstrip : pyStripL (joinPipes v fs).data = (joinPipes v fs).data := by
    apply stripL_eq_self
    · rw [hjp, hcons]
      simp [List.dropWhile, hchead]
    · rw [hjp]
      cases fs with
      | nil =>
        simp only [pipeSuffix]
        show (v.data ++ ("" : String).data).reverse.dropWhile pyIsSpace
          = (v.data ++ ("" : String).data).reverse
        simpa using hback
      | cons g gs =>
        obtain ⟨ch, cst, hrev2, hcw⟩ := pipeSuffix_rev_head (g :: gs) (by simp) h
        rw [List.reverse_append, hrev2]
        simp [List.dropWhile, word_not_space ch hcw]
  exact congrArg String.mk hstrip

/-- The filter list is no longer than the joined body. -/
theorem joinPipes_length_ge (v : String) (fs : List String) :
    fs.length ≤ (joinPipes v fs).data.length := by
  have hp : ∀ gs : List String, gs.length ≤ (pipeSuffix gs).data.length := by
    intro gs
    induction gs with
    | nil => simp [pipeSuffix]
    | cons g t ih =>
      have : (pipeSuffix (g :: t)).data.length = 3 + g.data.length + (pipeSuffix t).data.length := by
        simp [pipeSuffix, String.data_append]
        omega
      rw [this]
      simp only [List.length_cons]
      omega
  have : (joinPipes v fs).data.length = v.data.length + (pipeSuffix fs).data.length := by
    simp [joinPipes, String.data_append]
  rw [this]
  have := hp fs
  omega

/-- One peeling pass of `parse_expr` on a joined body. -/
theorem parse_expr_aux_roundtrip (v : String) (hv : pyStrip v = v) (hne : v ≠ "")
    (hx : extract_last_filter v = (v, "")) :
    ∀ (fs : List String), (∀ f ∈ fs, f.data ≠ [] ∧ ∀ c ∈ f.data, isWordChar c = true) →
      ∀ (acc : List String) (fuel : Nat), fs.length + 1 ≤ fuel →
        parse_expr_aux fuel (joinPipes v fs) acc = (v, fs ++ acc) := by
  intro fs
  induction fs using List.reverseRecOn with
  | nil =>
    intro hh acc fuel hfuel
    cases fuel with
    | zero => omega
    | succ n =>
      have hjv : joinPipes v [] = v := by simp [joinPipes, pipeSuffix]
      rw [hjv]
      simp [parse_expr_aux, hx]
  | append_singleton gs g ih =>
    intro hh acc fuel hfuel
    cases fuel with
    | zero => simp at hfuel
    | succ n =>
      obtain ⟨hg, hgw⟩ := hh g (by simp)
      have hA : pyStrip (joinPipes v gs) = joinPipes v gs :=
        joinPipes_strip_fix v gs hv hne (fun f hf => hh f (by simp [hf]))
      have hext : extract_last_filter (joinPipes v (gs ++ [g])) = (joinPipes v gs, g) := by
        rw [joinPipes_append]
        rw [extract_append (joinPipes v gs) g hg hgw, hA]
      have hgne : g ≠ "" := by
        intro hnil
        exact hg (congrArg String.data hnil)
      simp only [parse_expr_aux, hext, hgne, if_false]
      rw [ih (fun f hf => hh f (by simp [hf])) (g :: acc) n (by simp at hfuel; omega)]
      simp



/-- C7: for any stripped variable reference with no trailing filter shape of
its own and any list of identifier filters, parsing the body written as
`v | f1 | ... | fn` returns exactly the variable and the filters in
left-to-right textual order (each peeled identifier is inserted at the front
of the list); and a body with no trailing pipe-identifier suffix parses to
itself with an empty filter list, not an error. -/
theorem c7_theorem :
    (∀ (v : String) (fs : List String),
        pyStrip v = v → v ≠ "" → extract_last_filter v = (v, "") →
        (∀ f ∈ fs, f.data ≠ [] ∧ ∀ c ∈ f.data, isWordChar c = true) →
        parse_expr (joinPipes v fs) = (v, fs)) ∧
    (∀ body : String, extract_last_filter body = (body, "") → parse_expr body = (body, [])) := by
  constructor
  · intro v fs hv hne hx hh
    unfold parse_expr
    rw [parse_expr_aux_roundtrip v hv hne hx fs hh []
      ((joinPipes v fs).data.length + 1)
      (by have := joinPipes_length_ge v fs; omega)]
    simp
  · intro body hx
    unfold parse_expr
    simp [parse_expr_aux, hx]

/-- C7 (witness): the round-trip theorem applied to the repository's own
multi-filter test body, and a no-filter body parsed without error. -/
theorem c7_witness :
    parse_expr "name | upper | strip" = ("name", ["upper", "strip"]) ∧
    parse_expr "loop.index1" = ("loop.index1", []) := by
  constructor
  · have h := c7_theorem.1 "name" ["upper", "strip"] (by decide) (by decide) (by decide)
      (by decide)
    have hj : joinPipes "name" ["upper", "strip"] = "name | upper | strip" := by decide
    rw [hj] at h
    exact h
  · exact c7_theorem.2 "loop.index1" (by decide)

end PyTemplate
